import Mathlib

/-!
Verification of the semantic FAQ answering engine
(`src/backend/app/apis/faq/__init__.py`).

The engine is embedded shallowly:

* Text analysis follows scikit-learn's `TfidfVectorizer` defaults as used
  by the source: lowercase the text, split it into maximal runs of word
  characters, keep tokens of length at least two, weight raw term counts
  by the smoothed inverse document frequency
  `ln((1 + n) / (1 + df)) + 1`, and compare the L2-normalised vectors by
  their dot product (cosine similarity).  Floating point arithmetic is
  idealised as real arithmetic.
* `VectorSearch`, `add_faqs`, `search`, `search_faq` and `update_faq`
  mirror the classes and endpoint functions of the source file.  The
  OpenAI chat-completion call is an external boundary; its outcome on the
  one call a query can make is a parameter of type
  `Option (Except Unit String)` (`none` = no configured client, `.error` =
  the call raised, `.ok s` = the call returned text `s`).  `search_faq`
  additionally returns how many fallback calls were made, modelling a call
  counter on the client.
* Timestamps are abstract clock ticks (`Nat`); `datetime.now()` becomes an
  explicit `now` argument.
-/

/-- Character class of Python's regex `\w` (ASCII range): letters, digits
and the underscore.  The source tokenises with the default pattern
`\b\w\w+\b`. -/
def isWordChar (c : Char) : Bool := c.isAlphanum || c == '_'

/-- Emit the accumulated (reversed) run of word characters as a token if it
has length at least two, as the pattern `\w\w+` demands. -/
def flushTok (cur : List Char) : List String :=
  if 2 ≤ cur.length then [String.mk cur.reverse] else []

/-- Scan the character list, accumulating maximal runs of word characters
(lower-cased, as `TfidfVectorizer` lowercases before tokenising). -/
def tokenizeAux : List Char → List Char → List String
  | [], cur => flushTok cur
  | c :: rest, cur =>
    if isWordChar c then tokenizeAux rest (c.toLower :: cur)
    else flushTok cur ++ tokenizeAux rest []

/-- Tokenisation of `TfidfVectorizer` with default settings: lowercase,
then the maximal runs of word characters of length at least two. -/
def tokenize (s : String) : List String := tokenizeAux s.toList []

/-- One FAQ entry (`FAQItem` in the source); timestamps are abstract
ticks. -/
structure FAQItem where
  id : String
  question : String
  answer : String
  created_at : Nat
  updated_at : Nat
  tags : List String
deriving DecidableEq

/-- Placeholder entry used only as the (in-bounds-irrelevant) default of
`List.getD`; the source indexes lists directly. -/
def dfltFAQ : FAQItem := ⟨"", "", "", 0, 0, []⟩

/-- The corpus the vectoriser is fit on: per entry, the token list of
`f"{faq.question} {faq.answer}"` (source line 75). -/
def corpusOf (faqs : List FAQItem) : List (List String) :=
  faqs.map (fun f => tokenize (f.question ++ " " ++ f.answer))

/-- Document frequency of a term: in how many corpus documents it
occurs. -/
def docFreq (corpus : List (List String)) (t : String) : Nat :=
  (corpus.filter (fun d => d.contains t)).length

/-- Smoothed inverse document frequency, scikit-learn's default:
`ln((1 + n) / (1 + df)) + 1`. -/
noncomputable def idf (corpus : List (List String)) (t : String) : ℝ :=
  Real.log ((1 + (corpus.length : ℝ)) / (1 + (docFreq corpus t : ℝ))) + 1

/-- Un-normalised tf-idf weight of term `t` for document `d`: raw count
times inverse document frequency. -/
noncomputable def tfidfW (corpus : List (List String)) (d : List String) (t : String) : ℝ :=
  ((d.count t : ℕ) : ℝ) * idf corpus t

/-- The fitted vocabulary: the distinct tokens of the corpus (its order,
sorted in scikit-learn, does not matter for dot products). -/
def vocab (corpus : List (List String)) : Finset String := corpus.flatten.toFinset

/-- Dot product of two weight vectors over the vocabulary columns.  Query
terms outside the fitted vocabulary contribute nothing, exactly as
`transform` drops them. -/
noncomputable def dotW (corpus : List (List String)) (u v : String → ℝ) : ℝ :=
  ∑ t ∈ vocab corpus, u t * v t

/-- Euclidean norm of a weight vector over the vocabulary columns. -/
noncomputable def normW (corpus : List (List String)) (u : String → ℝ) : ℝ :=
  Real.sqrt (dotW corpus u u)

/-- Cosine similarity of the tf-idf vectors of two token lists, as
`sklearn.metrics.pairwise.cosine_similarity` computes it: both vectors are
L2-normalised (an all-zero vector is left as zero, giving similarity 0)
and then multiplied. -/
noncomputable def cosSim (corpus : List (List String)) (qd dd : List String) : ℝ :=
  if normW corpus (tfidfW corpus qd) = 0 ∨ normW corpus (tfidfW corpus dd) = 0 then 0
  else
    dotW corpus (tfidfW corpus qd) (tfidfW corpus dd) /
      (normW corpus (tfidfW corpus qd) * normW corpus (tfidfW corpus dd))

/-- Index of the first occurrence of the maximum of the list, the
documented behaviour of `np.argmax` (source line 90); `0` on `[]`. -/
noncomputable def argmaxIdx : List ℝ → ℕ
  | [] => 0
  | [_] => 0
  | x :: y :: t =>
    if x < (y :: t).getD (argmaxIdx (y :: t)) 0 then argmaxIdx (y :: t) + 1 else 0

/-- State of the `VectorSearch` helper class.  `fitCorpus` is the corpus
the vectoriser was last fit on (the fitted vocabulary and idf weights are
functions of it); `hasVectors` records whether `self.vectors` is set. -/
structure VectorSearch where
  faqs : List FAQItem
  fitCorpus : List (List String)
  hasVectors : Bool
  initialized : Bool

/-- The freshly constructed `VectorSearch()` instance (source line 99):
no FAQs, unfitted vectoriser, no vectors. -/
def initVS : VectorSearch := ⟨[], [], false, false⟩

/-- `VectorSearch.add_faqs` (source lines 71-80): store the list; if it is
non-empty, fit the vectoriser on the concatenated question+answer corpus
and mark the index ready, else drop the vectors and mark it not ready
(leaving the previously fitted vectoriser untouched). -/
def VectorSearch.add_faqs (vs : VectorSearch) (faqs : List FAQItem) : VectorSearch :=
  if faqs.isEmpty then
    { vs with faqs := faqs, hasVectors := false, initialized := false }
  else
    { faqs := faqs, fitCorpus := corpusOf faqs, hasVectors := true, initialized := true }

/-- `VectorSearch.search` (source lines 82-96): if the index is not ready
or holds no FAQs, `(none, 0.0)`; otherwise transform the query, take
cosine similarities against every stored row, pick the first index of the
best score, and return the matched FAQ exactly when
`best_similarity >= threshold`.  The score is returned in both cases. -/
noncomputable def VectorSearch.search (vs : VectorSearch) (query : String) (threshold : ℝ) :
    Option FAQItem × ℝ :=
  if vs.initialized = false ∨ vs.faqs = [] then (none, 0)
  else
    let similarities := vs.fitCorpus.map (fun d => cosSim vs.fitCorpus (tokenize query) d)
    let best_idx := argmaxIdx similarities
    let best_similarity := similarities.getD best_idx 0
    if threshold ≤ best_similarity then (some (vs.faqs.getD best_idx dfltFAQ), best_similarity)
    else (none, best_similarity)

/-- The request body of the `/search` endpoint (`QueryRequest`). -/
structure QueryRequest where
  question : String
  confidence_threshold : ℝ

/-- The response of the `/search` endpoint (`QueryResponse`), with the
source's field defaults `answer=None`, `confidence=0.0`,
`source_faq_id=None`, `has_answer=False`. -/
structure QueryResponse where
  answer : Option String
  confidence : ℝ
  source_faq_id : Option String
  has_answer : Bool

/-- The fixed sentinel phrase the source tests for with
`"don't have enough information" in ai_answer.lower()` (line 245). -/
def sentinelPhrase : String := "don\x27t have enough information"

/-- Python's `str.lower()` restricted to the ASCII range, matching the
lower-casing the model applies elsewhere. -/
def pyLower (s : String) : String := String.mk (s.toList.map Char.toLower)

/-- Whether `needle` is a prefix of `hay`, on character lists. -/
def startsWithL : List Char → List Char → Bool
  | [], _ => true
  | _ :: _, [] => false
  | a :: as, b :: bs => a == b && startsWithL as bs

/-- Whether `needle` occurs contiguously in `hay`: Python's substring
operator `in` on strings, on character lists. -/
def hasSubList (needle : List Char) : List Char → Bool
  | [] => startsWithL needle []
  | c :: rest => startsWithL needle (c :: rest) || hasSubList needle rest

/-- Python's `needle in hay` for strings. -/
def containsSub (needle hay : String) : Bool := hasSubList needle.toList hay.toList

/-- The similarity row the search computes for a knowledge-base snapshot
(the index freshly rebuilt from it, as `get_faqs` does before every
search). -/
noncomputable def simsOn (faqs : List FAQItem) (query : String) : List ℝ :=
  (corpusOf faqs).map (fun d => cosSim (corpusOf faqs) (tokenize query) d)

/-- The best (first-maximal) similarity score for a snapshot and query. -/
noncomputable def bestScore (faqs : List FAQItem) (query : String) : ℝ :=
  (simsOn faqs query).getD (argmaxIdx (simsOn faqs query)) 0

/-- `vector_search.search` as the `/search` endpoint reaches it: `get_faqs`
has just rebuilt the index from the stored snapshot via `add_faqs`. -/
noncomputable def searchOn (faqs : List FAQItem) (query : String) (threshold : ℝ) :
    Option FAQItem × ℝ :=
  (VectorSearch.add_faqs initVS faqs).search query threshold

/-- The `/search` endpoint `search_faq` (source lines 203-260) over a
knowledge-base snapshot.  `openai_client` is the boundary collaborator:
`none` models an unconfigured client (line 228's guard fails), `.error`
a call that raises (caught at line 255), `.ok s` a completion with text
`s`.  The second component counts fallback invocations. -/
noncomputable def search_faq (faqs : List FAQItem) (openai_client : Option (Except Unit String))
    (request : QueryRequest) : QueryResponse × Nat :=
  if faqs = [] then (⟨none, 0, none, false⟩, 0)
  else
    let r := searchOn faqs request.question request.confidence_threshold
    match r.1 with
    | some best_match => (⟨some best_match.answer, r.2, some best_match.id, true⟩, 0)
    | none =>
      match openai_client with
      | none => (⟨none, r.2, none, false⟩, 0)
      | some call =>
        match call with
        | .error _ => (⟨none, r.2, none, false⟩, 1)
        | .ok ai_answer =>
          if containsSub sentinelPhrase (pyLower ai_answer) then
            (⟨none, 0.4, none, false⟩, 1)
          else
            (⟨some ai_answer, 0.7, none, true⟩, 1)

/-- The request body of the update endpoint (`UpdateFAQRequest`); `tags`
is optional. -/
structure UpdateFAQRequest where
  question : String
  answer : String
  tags : Option (List String)

/-- Python's `request.tags or old`: `None` and the empty list are falsy,
so both fall back to the old tags (source line 179). -/
def pyOrTags : Option (List String) → List String → List String
  | none, old => old
  | some [], old => old
  | some (t :: ts), _ => t :: ts

/-- The index of the first entry satisfying `p`, as the source's
`next((i for i, f in enumerate(faqs) if ...), None)` computes it. -/
def firstIdxWith (p : FAQItem → Bool) : List FAQItem → Option Nat
  | [] => none
  | f :: fs => if p f then some 0 else (firstIdxWith p fs).map (· + 1)

/-- The `PUT /{faq_id}` endpoint `update_faq` (source lines 166-187):
locate the first entry with the given id (404 if none), rebuild it with
the request's content, `tags or old.tags`, the old creation timestamp and
the current time, and store it back at the same index. -/
def update_faq (faqs : List FAQItem) (faq_id : String) (request : UpdateFAQRequest)
    (now : Nat) : Except Nat (List FAQItem × FAQItem) :=
  match firstIdxWith (fun f => f.id == faq_id) faqs with
  | none => .error 404
  | some faq_index =>
    let old := faqs.getD faq_index dfltFAQ
    let updated_faq : FAQItem :=
      { id := faq_id, question := request.question, answer := request.answer,
        created_at := old.created_at, updated_at := now,
        tags := pyOrTags request.tags old.tags }
    .ok (faqs.set faq_index updated_faq, updated_faq)

example : tokenize "How do I reset my password?" = ["how", "do", "reset", "my", "password"] := by
  decide

example : tokenize "aa bb" = ["aa", "bb"] := by decide

example : containsSub sentinelPhrase (pyLower "I DON\x27T HAVE ENOUGH INFORMATION.") = true := by
  decide

/-! Basic facts about the embedding. -/

/-- In-bounds `getD` commutes with `map`; the defaults are irrelevant. -/
theorem getD_map_of_lt {α β : Type} (f : α → β) :
    ∀ (l : List α) (k : Nat), k < l.length → ∀ (d : β) (e : α),
      (l.map f).getD k d = f (l.getD k e) := by
  intro l
  induction l with
  | nil => intro k hk; simp at hk
  | cons a as ih =>
    intro k hk d e
    cases k with
    | zero => simp
    | succ k' => simpa using ih k' (by simpa using hk) d e

/-- The first-maximum index stays in bounds on a non-empty list. -/
theorem argmaxIdx_lt_length : ∀ (l : List ℝ), l ≠ [] → argmaxIdx l < l.length := by
  intro l
  induction l with
  | nil => simp
  | cons x xs ih =>
    intro _
    cases xs with
    | nil => simp [argmaxIdx]
    | cons y t =>
      rw [argmaxIdx]
      split
      · have := ih (by simp)
        simpa using Nat.succ_lt_succ this
      · simp

/-- Every entry of the list is at most the entry at the first-maximum
index. -/
theorem getD_le_argmax : ∀ (l : List ℝ) (k : Nat), k < l.length →
    l.getD k 0 ≤ l.getD (argmaxIdx l) 0 := by
  intro l
  induction l with
  | nil => intro k hk; simp at hk
  | cons x xs ih =>
    intro k hk
    cases xs with
    | nil =>
      have hk0 : k = 0 := Nat.lt_one_iff.mp (by simpa using hk)
      subst hk0
      simp [argmaxIdx]
    | cons y t =>
      rw [argmaxIdx]
      split
      · rename_i hlt
        cases k with
        | zero => simpa using le_of_lt hlt
        | succ k' => simpa using ih k' (by simpa using hk)
      · rename_i hge
        push_neg at hge
        cases k with
        | zero => simp
        | succ k' =>
          have h1 : (y :: t).getD k' 0 ≤ (y :: t).getD (argmaxIdx (y :: t)) 0 :=
            ih k' (by simpa using hk)
          simpa using le_trans h1 hge

/-- Entries strictly before the first-maximum index are strictly below the
maximum: the scan advances only on a strictly greater value. -/
theorem getD_lt_of_lt_argmax : ∀ (l : List ℝ) (k : Nat), k < argmaxIdx l →
    l.getD k 0 < l.getD (argmaxIdx l) 0 := by
  intro l
  induction l with
  | nil => intro k hk; simp [argmaxIdx] at hk
  | cons x xs ih =>
    intro k hk
    cases xs with
    | nil => simp [argmaxIdx] at hk
    | cons y t =>
      rw [argmaxIdx] at hk ⊢
      split
      · rename_i hlt
        cases k with
        | zero => simpa using hlt
        | succ k' =>
          rw [if_pos hlt] at hk
          simpa using ih k' (by omega)
      · rename_i hge
        rw [if_neg hge] at hk
        omega

/-- The idf weight is at least one: `df ≤ n`, so the logarithm is
non-negative. -/
theorem one_le_idf (corpus : List (List String)) (t : String) : 1 ≤ idf corpus t := by
  unfold idf
  have hdf : (docFreq corpus t : ℝ) ≤ (corpus.length : ℝ) := by
    exact_mod_cast List.length_filter_le _ _
  have harg : (1 : ℝ) ≤ (1 + (corpus.length : ℝ)) / (1 + (docFreq corpus t : ℝ)) := by
    rw [le_div_iff₀ (by positivity)]
    linarith
  have := Real.log_nonneg harg
  linarith

/-- Every tf-idf weight is non-negative. -/
theorem tfidfW_nonneg (corpus : List (List String)) (d : List String) (t : String) :
    0 ≤ tfidfW corpus d t := by
  unfold tfidfW
  have h1 := one_le_idf corpus t
  positivity

/-- A dot product of componentwise non-negative vectors is
non-negative. -/
theorem dotW_nonneg (corpus : List (List String)) (u v : String → ℝ)
    (hu : ∀ t, 0 ≤ u t) (hv : ∀ t, 0 ≤ v t) : 0 ≤ dotW corpus u v :=
  Finset.sum_nonneg fun t _ => mul_nonneg (hu t) (hv t)

/-- A vector's dot product with itself is non-negative. -/
theorem dotW_self_nonneg (corpus : List (List String)) (u : String → ℝ) :
    0 ≤ dotW corpus u u :=
  Finset.sum_nonneg fun t _ => mul_self_nonneg (u t)

/-- The norm is non-negative. -/
theorem normW_nonneg (corpus : List (List String)) (u : String → ℝ) :
    0 ≤ normW corpus u := Real.sqrt_nonneg _

/-- Cauchy-Schwarz for the embedding's dot product: the dot product is at
most the product of the norms. -/
theorem dotW_le_normW_mul_normW (corpus : List (List String)) (u v : String → ℝ) :
    dotW corpus u v ≤ normW corpus u * normW corpus v := by
  unfold dotW normW
  have hu : dotW corpus u u = ∑ t ∈ vocab corpus, u t ^ 2 :=
    Finset.sum_congr rfl fun t _ => (pow_two (u t)).symm
  have hv : dotW corpus v v = ∑ t ∈ vocab corpus, v t ^ 2 :=
    Finset.sum_congr rfl fun t _ => (pow_two (v t)).symm
  rw [show dotW corpus u u = ∑ t ∈ vocab corpus, u t ^ 2 from hu,
    show dotW corpus v v = ∑ t ∈ vocab corpus, v t ^ 2 from hv]
  exact Real.sum_mul_le_sqrt_mul_sqrt _ u v

/-- Cosine similarity never exceeds one. -/
theorem cosSim_le_one (corpus : List (List String)) (qd dd : List String) :
    cosSim corpus qd dd ≤ 1 := by
  unfold cosSim
  split
  · exact zero_le_one
  · rename_i h
    push_neg at h
    obtain ⟨hq, hd⟩ := h
    have hqpos : 0 < normW corpus (tfidfW corpus qd) :=
      lt_of_le_of_ne (normW_nonneg _ _) (Ne.symm hq)
    have hdpos : 0 < normW corpus (tfidfW corpus dd) :=
      lt_of_le_of_ne (normW_nonneg _ _) (Ne.symm hd)
    rw [div_le_one (by positivity)]
    exact dotW_le_normW_mul_normW corpus _ _

/-- Cosine similarity is non-negative: all tf-idf components are. -/
theorem cosSim_nonneg (corpus : List (List String)) (qd dd : List String) :
    0 ≤ cosSim corpus qd dd := by
  unfold cosSim
  split
  · exact le_refl 0
  · rename_i h
    push_neg at h
    obtain ⟨hq, hd⟩ := h
    have hqpos : 0 < normW corpus (tfidfW corpus qd) :=
      lt_of_le_of_ne (normW_nonneg _ _) (Ne.symm hq)
    have hdpos : 0 < normW corpus (tfidfW corpus dd) :=
      lt_of_le_of_ne (normW_nonneg _ _) (Ne.symm hd)
    exact div_nonneg
      (dotW_nonneg _ _ _ (tfidfW_nonneg _ _) (tfidfW_nonneg _ _)) (by positivity)

/-- A document compares to itself with cosine similarity exactly one, as
long as its vector is non-zero. -/
theorem cosSim_self (corpus : List (List String)) (d : List String)
    (hd : normW corpus (tfidfW corpus d) ≠ 0) : cosSim corpus d d = 1 := by
  have hdd : 0 ≤ dotW corpus (tfidfW corpus d) (tfidfW corpus d) := dotW_self_nonneg _ _
  unfold cosSim
  rw [if_neg (by tauto)]
  rw [show normW corpus (tfidfW corpus d) * normW corpus (tfidfW corpus d)
        = dotW corpus (tfidfW corpus d) (tfidfW corpus d) from by
    rw [normW]; exact Real.mul_self_sqrt hdd]
  apply div_self
  intro h0
  exact hd (by simp [normW, h0])

/-- A document that is in the corpus and holds at least one token has a
non-zero tf-idf vector. -/
theorem normW_pos_of_token (corpus : List (List String)) (d : List String)
    (hd : d ∈ corpus) (t0 : String) (ht0 : t0 ∈ d) :
    0 < normW corpus (tfidfW corpus d) := by
  rw [normW, Real.sqrt_pos]
  have hmem : t0 ∈ vocab corpus := by
    rw [vocab, List.mem_toFinset, List.mem_flatten]
    exact ⟨d, hd, ht0⟩
  have hw : 0 < tfidfW corpus d t0 := by
    unfold tfidfW
    have hc : 0 < d.count t0 := List.count_pos_iff.mpr ht0
    have h1 := one_le_idf corpus t0
    have hc' : (1 : ℝ) ≤ (d.count t0 : ℝ) := by exact_mod_cast hc
    nlinarith
  have hsingle : tfidfW corpus d t0 * tfidfW corpus d t0 ≤ dotW corpus (tfidfW corpus d) (tfidfW corpus d) :=
    Finset.single_le_sum (f := fun t => tfidfW corpus d t * tfidfW corpus d t)
      (fun t _ => mul_self_nonneg _) hmem
  nlinarith

/-- The similarity row has one score per knowledge-base entry. -/
theorem length_simsOn (faqs : List FAQItem) (query : String) :
    (simsOn faqs query).length = faqs.length := by
  simp [simsOn, corpusOf]

/-- The endpoint's search, written as one equation: the returned score is
always the best score, and the entry at the first-maximal row is returned
exactly when the threshold is met (inclusively). -/
theorem searchOn_eq (faqs : List FAQItem) (query : String) (t : ℝ) (hne : faqs ≠ []) :
    searchOn faqs query t =
      ((if t ≤ bestScore faqs query
        then some (faqs.getD (argmaxIdx (simsOn faqs query)) dfltFAQ) else none),
       bestScore faqs query) := by
  have hne' : faqs.isEmpty = false := by
    cases faqs with
    | nil => exact absurd rfl hne
    | cons a as => rfl
  unfold searchOn VectorSearch.add_faqs
  rw [hne']
  simp only [Bool.false_eq_true, if_false]
  unfold VectorSearch.search
  rw [if_neg (by simp [hne])]
  simp only [bestScore, simsOn]
  split <;> rfl

/-! Concrete knowledge bases used to instantiate the claims.  Tokens are
two-letter words so that the default token pattern keeps them. -/

/-- A single entry whose question and answer are distinct words, so the
document vector mixes question and answer terms. -/
def faq1 : FAQItem := ⟨"f1", "aa", "bb", 0, 0, []⟩

/-- One-entry knowledge base around `faq1`. -/
def exKB1 : List FAQItem := [faq1]

/-- A single entry with term counts 3 and 4, giving the rational best
score 3/5 for the query "aa". -/
def faq2 : FAQItem := ⟨"f2", "aa aa aa bb bb bb bb", "", 0, 0, []⟩

/-- One-entry knowledge base around `faq2`. -/
def exKB2 : List FAQItem := [faq2]

/-- A second entry with the same question and answer text as `faq1` but a
different identifier. -/
def faq1b : FAQItem := ⟨"f9", "aa", "bb", 0, 0, []⟩

/-- Two entries with identical question+answer text. -/
def exKB3 : List FAQItem := [faq1, faq1b]

/-- When a term occurs in every corpus document, its idf weight is exactly
one. -/
theorem idf_eq_one (corpus : List (List String)) (t : String)
    (h : docFreq corpus t = corpus.length) : idf corpus t = 1 := by
  unfold idf
  rw [h, div_self (by positivity), Real.log_one]
  norm_num

/-- With idf one, a tf-idf weight is the raw count. -/
theorem tfidfW_idf_one (corpus : List (List String)) (d : List String) (t : String)
    (h : docFreq corpus t = corpus.length) : tfidfW corpus d t = (d.count t : ℝ) := by
  rw [tfidfW, idf_eq_one corpus t h, mul_one]

/-- A term absent from the document has weight zero whatever its idf. -/
theorem tfidfW_count_zero (corpus : List (List String)) (d : List String) (t : String)
    (h : d.count t = 0) : tfidfW corpus d t = 0 := by
  rw [tfidfW, h]
  norm_num

/-- Dot products over the two-term vocabulary {"aa", "bb"} expand to two
summands. -/
theorem dotW_ab (corpus : List (List String)) (hc : vocab corpus = {"aa", "bb"})
    (u v : String → ℝ) : dotW corpus u v = u "aa" * v "aa" + u "bb" * v "bb" := by
  rw [dotW, hc, Finset.sum_insert (by decide), Finset.sum_singleton]


/-- Vocabulary of the `exKB1` corpus. -/
theorem vocab_exKB1 : vocab [["aa", "bb"]] = {"aa", "bb"} := by decide

/-- Vocabulary of the `exKB2` corpus. -/
theorem vocab_exKB2 : vocab [["aa", "aa", "aa", "bb", "bb", "bb", "bb"]] = {"aa", "bb"} := by
  decide

/-- Tf-idf vector of the query "aa" against the `exKB1` corpus. -/
theorem w_exKB1_q_aa :
    tfidfW [["aa", "bb"]] ["aa"] "aa" = 1 ∧ tfidfW [["aa", "bb"]] ["aa"] "bb" = 0 := by
  constructor
  · rw [tfidfW_idf_one _ _ _ (by decide),
      show (["aa"] : List String).count "aa" = 1 from by decide]
    norm_num
  · exact tfidfW_count_zero _ _ _ (by decide)

/-- Tf-idf vector of the single `exKB1` document. -/
theorem w_exKB1_doc :
    tfidfW [["aa", "bb"]] ["aa", "bb"] "aa" = 1 ∧
    tfidfW [["aa", "bb"]] ["aa", "bb"] "bb" = 1 := by
  constructor
  · rw [tfidfW_idf_one _ _ _ (by decide),
      show (["aa", "bb"] : List String).count "aa" = 1 from by decide]
    norm_num
  · rw [tfidfW_idf_one _ _ _ (by decide),
      show (["aa", "bb"] : List String).count "bb" = 1 from by decide]
    norm_num

/-- Tf-idf vector of the out-of-vocabulary query "cc" against the `exKB1`
corpus: identically zero on the vocabulary. -/
theorem w_exKB1_q_cc :
    tfidfW [["aa", "bb"]] ["cc"] "aa" = 0 ∧ tfidfW [["aa", "bb"]] ["cc"] "bb" = 0 :=
  ⟨tfidfW_count_zero _ _ _ (by decide), tfidfW_count_zero _ _ _ (by decide)⟩

/-- Cosine similarity of the exact-question query "aa" with the `exKB1`
document "aa bb": the inverse square root of two, strictly less than
one. -/
theorem cos_exKB1_aa :
    cosSim [["aa", "bb"]] ["aa"] ["aa", "bb"] = (Real.sqrt 2)⁻¹ := by
  have hq := w_exKB1_q_aa
  have hd := w_exKB1_doc
  have hqq : dotW [["aa", "bb"]] (tfidfW [["aa", "bb"]] ["aa"])
      (tfidfW [["aa", "bb"]] ["aa"]) = 1 := by
    rw [dotW_ab _ vocab_exKB1, hq.1, hq.2]; ring
  have hdd : dotW [["aa", "bb"]] (tfidfW [["aa", "bb"]] ["aa", "bb"])
      (tfidfW [["aa", "bb"]] ["aa", "bb"]) = 2 := by
    rw [dotW_ab _ vocab_exKB1, hd.1, hd.2]; ring
  have hqd : dotW [["aa", "bb"]] (tfidfW [["aa", "bb"]] ["aa"])
      (tfidfW [["aa", "bb"]] ["aa", "bb"]) = 1 := by
    rw [dotW_ab _ vocab_exKB1, hq.1, hq.2, hd.1, hd.2]; ring
  unfold cosSim normW
  rw [hqq, hdd, hqd, Real.sqrt_one]
  rw [if_neg (by
    push_neg
    refine ⟨by norm_num, ?_⟩
    positivity)]
  rw [one_mul, one_div]

/-- Cosine similarity of the full concatenated text "aa bb" with the
`exKB1` document: exactly one. -/
theorem cos_exKB1_aabb :
    cosSim [["aa", "bb"]] ["aa", "bb"] ["aa", "bb"] = 1 := by
  apply cosSim_self
  rw [normW]
  have hdd : dotW [["aa", "bb"]] (tfidfW [["aa", "bb"]] ["aa", "bb"])
      (tfidfW [["aa", "bb"]] ["aa", "bb"]) = 2 := by
    rw [dotW_ab _ vocab_exKB1, w_exKB1_doc.1, w_exKB1_doc.2]; ring
  rw [hdd]
  positivity

/-- Cosine similarity of the out-of-vocabulary query "cc" with the `exKB1`
document: zero, because the query vector is all zero. -/
theorem cos_exKB1_cc :
    cosSim [["aa", "bb"]] ["cc"] ["aa", "bb"] = 0 := by
  have hqq : dotW [["aa", "bb"]] (tfidfW [["aa", "bb"]] ["cc"])
      (tfidfW [["aa", "bb"]] ["cc"]) = 0 := by
    rw [dotW_ab _ vocab_exKB1, w_exKB1_q_cc.1, w_exKB1_q_cc.2]; ring
  unfold cosSim
  rw [if_pos]
  left
  rw [normW, hqq, Real.sqrt_zero]

/-- Tf-idf weights for the `exKB2` corpus: query "aa" and the single
document with term counts three and four. -/
theorem w_exKB2 :
    tfidfW [["aa", "aa", "aa", "bb", "bb", "bb", "bb"]] ["aa"] "aa" = 1 ∧
    tfidfW [["aa", "aa", "aa", "bb", "bb", "bb", "bb"]] ["aa"] "bb" = 0 ∧
    tfidfW [["aa", "aa", "aa", "bb", "bb", "bb", "bb"]]
      ["aa", "aa", "aa", "bb", "bb", "bb", "bb"] "aa" = 3 ∧
    tfidfW [["aa", "aa", "aa", "bb", "bb", "bb", "bb"]]
      ["aa", "aa", "aa", "bb", "bb", "bb", "bb"] "bb" = 4 := by
  refine ⟨?_, tfidfW_count_zero _ _ _ (by decide), ?_, ?_⟩
  · rw [tfidfW_idf_one _ _ _ (by decide),
      show (["aa"] : List String).count "aa" = 1 from by decide]
    norm_num
  · rw [tfidfW_idf_one _ _ _ (by decide),
      show (["aa", "aa", "aa", "bb", "bb", "bb", "bb"] : List String).count "aa" = 3 from
        by decide]
    norm_num
  · rw [tfidfW_idf_one _ _ _ (by decide),
      show (["aa", "aa", "aa", "bb", "bb", "bb", "bb"] : List String).count "bb" = 4 from
        by decide]
    norm_num

/-- Cosine similarity of the query "aa" with the `exKB2` document: exactly
3/5. -/
theorem cos_exKB2_aa :
    cosSim [["aa", "aa", "aa", "bb", "bb", "bb", "bb"]] ["aa"]
      ["aa", "aa", "aa", "bb", "bb", "bb", "bb"] = 3 / 5 := by
  obtain ⟨h1, h2, h3, h4⟩ := w_exKB2
  have hqq : dotW [["aa", "aa", "aa", "bb", "bb", "bb", "bb"]]
      (tfidfW [["aa", "aa", "aa", "bb", "bb", "bb", "bb"]] ["aa"])
      (tfidfW [["aa", "aa", "aa", "bb", "bb", "bb", "bb"]] ["aa"]) = 1 := by
    rw [dotW_ab _ vocab_exKB2, h1, h2]; ring
  have hdd : dotW [["aa", "aa", "aa", "bb", "bb", "bb", "bb"]]
      (tfidfW [["aa", "aa", "aa", "bb", "bb", "bb", "bb"]]
        ["aa", "aa", "aa", "bb", "bb", "bb", "bb"])
      (tfidfW [["aa", "aa", "aa", "bb", "bb", "bb", "bb"]]
        ["aa", "aa", "aa", "bb", "bb", "bb", "bb"]) = 25 := by
    rw [dotW_ab _ vocab_exKB2, h3, h4]; ring
  have hqd : dotW [["aa", "aa", "aa", "bb", "bb", "bb", "bb"]]
      (tfidfW [["aa", "aa", "aa", "bb", "bb", "bb", "bb"]] ["aa"])
      (tfidfW [["aa", "aa", "aa", "bb", "bb", "bb", "bb"]]
        ["aa", "aa", "aa", "bb", "bb", "bb", "bb"]) = 3 := by
    rw [dotW_ab _ vocab_exKB2, h1, h2, h3, h4]; ring
  unfold cosSim normW
  rw [hqq, hdd, hqd, Real.sqrt_one,
    show (25 : ℝ) = 5 ^ 2 by norm_num, Real.sqrt_sq (by norm_num)]
  rw [if_neg (by push_neg; refine ⟨by norm_num, by norm_num⟩)]
  norm_num

/-- The similarity row of `exKB1` for the exact-question query "aa". -/
theorem sims_exKB1_aa : simsOn exKB1 "aa" = [(Real.sqrt 2)⁻¹] := by
  rw [simsOn, show corpusOf exKB1 = [["aa", "bb"]] from by decide,
    show tokenize "aa" = ["aa"] from by decide]
  simp only [List.map]
  rw [cos_exKB1_aa]

/-- The similarity row of `exKB1` for the out-of-vocabulary query "cc". -/
theorem sims_exKB1_cc : simsOn exKB1 "cc" = [0] := by
  rw [simsOn, show corpusOf exKB1 = [["aa", "bb"]] from by decide,
    show tokenize "cc" = ["cc"] from by decide]
  simp only [List.map]
  rw [cos_exKB1_cc]

/-- The similarity row of `exKB2` for the query "aa". -/
theorem sims_exKB2_aa : simsOn exKB2 "aa" = [3 / 5] := by
  rw [simsOn,
    show corpusOf exKB2 = [["aa", "aa", "aa", "bb", "bb", "bb", "bb"]] from by decide,
    show tokenize "aa" = ["aa"] from by decide]
  simp only [List.map]
  rw [cos_exKB2_aa]

/-- The best score of `exKB1` for its entry's exact question text. -/
theorem best_exKB1_aa : bestScore exKB1 "aa" = (Real.sqrt 2)⁻¹ := by
  rw [bestScore, sims_exKB1_aa]
  simp [argmaxIdx]

/-- The best score of `exKB1` for the out-of-vocabulary query. -/
theorem best_exKB1_cc : bestScore exKB1 "cc" = 0 := by
  rw [bestScore, sims_exKB1_cc]
  simp [argmaxIdx]

/-- The best score of `exKB2` for the query "aa". -/
theorem best_exKB2_aa : bestScore exKB2 "aa" = 3 / 5 := by
  rw [bestScore, sims_exKB2_aa]
  simp [argmaxIdx]

/-! Helper facts for the endpoint-level theorems. -/

/-- When the best score misses the threshold, `search_faq` runs the
fallback arm determined by the client value. -/
theorem search_faq_miss (faqs : List FAQItem) (query : String) (t : ℝ)
    (client : Option (Except Unit String)) (hne : faqs ≠ [])
    (hlt : bestScore faqs query < t) :
    search_faq faqs client ⟨query, t⟩ =
      match client with
      | none => (⟨none, bestScore faqs query, none, false⟩, 0)
      | some (Except.error _) => (⟨none, bestScore faqs query, none, false⟩, 1)
      | some (Except.ok ai) =>
        if containsSub sentinelPhrase (pyLower ai) then (⟨none, 0.4, none, false⟩, 1)
        else (⟨some ai, 0.7, none, true⟩, 1) := by
  have h1 : searchOn faqs query t = (none, bestScore faqs query) := by
    rw [searchOn_eq faqs query t hne, if_neg (not_le.mpr hlt)]
  unfold search_faq
  rw [if_neg hne]
  rw [show (⟨query, t⟩ : QueryRequest).question = query from rfl,
    show (⟨query, t⟩ : QueryRequest).confidence_threshold = t from rfl]
  rw [h1]
  cases client with
  | none => rfl
  | some call =>
    cases call with
    | error e => rfl
    | ok ai => rfl

/-- When the best score meets the threshold, `search_faq` answers directly
from the matched entry and never calls the fallback. -/
theorem search_faq_hit (faqs : List FAQItem) (query : String) (t : ℝ)
    (client : Option (Except Unit String)) (hne : faqs ≠ [])
    (hge : t ≤ bestScore faqs query) :
    search_faq faqs client ⟨query, t⟩ =
      (⟨some ((faqs.getD (argmaxIdx (simsOn faqs query)) dfltFAQ)).answer,
        bestScore faqs query,
        some ((faqs.getD (argmaxIdx (simsOn faqs query)) dfltFAQ)).id, true⟩, 0) := by
  have h1 : searchOn faqs query t =
      (some (faqs.getD (argmaxIdx (simsOn faqs query)) dfltFAQ), bestScore faqs query) := by
    rw [searchOn_eq faqs query t hne, if_pos hge]
  unfold search_faq
  rw [if_neg hne]
  rw [show (⟨query, t⟩ : QueryRequest).question = query from rfl,
    show (⟨query, t⟩ : QueryRequest).confidence_threshold = t from rfl]
  rw [h1]

/-- A found index of `firstIdxWith` is in bounds, and its entry satisfies
the predicate. -/
theorem firstIdxWith_spec (p : FAQItem → Bool) :
    ∀ (l : List FAQItem) (i : Nat), firstIdxWith p l = some i →
      i < l.length ∧ p (l.getD i dfltFAQ) = true := by
  intro l
  induction l with
  | nil => intro i h; simp [firstIdxWith] at h
  | cons f fs ih =>
    intro i h
    rw [firstIdxWith] at h
    by_cases hp : p f
    · rw [if_pos hp] at h
      obtain rfl : i = 0 := by simpa using h.symm
      simpa using hp
    · rw [if_neg hp] at h
      obtain ⟨i', hi', rfl⟩ := Option.map_eq_some'.mp h
      obtain ⟨hlen, hpe⟩ := ih i' hi'
      exact ⟨by simpa using Nat.succ_lt_succ hlen, by simpa using hpe⟩

/-! The claims. -/

/-- C6: for an empty knowledge base the `/search` endpoint returns
`has_answer = false` with confidence 0.0 and the fallback client is never
invoked (the call counter stays zero), whatever the client state. -/
theorem empty_kb_no_answer_no_fallback (client : Option (Except Unit String))
    (request : QueryRequest) :
    search_faq [] client request = (⟨none, 0, none, false⟩, 0) := by
  unfold search_faq
  rw [if_pos rfl]

/-- C8: rebuilding the index twice from the same entry list yields the same
search result as rebuilding once, for every query and threshold (in fact
the two states are equal). -/
theorem rebuild_idempotent_search (vs : VectorSearch) (l : List FAQItem)
    (query : String) (t : ℝ) :
    ((vs.add_faqs l).add_faqs l).search query t = (vs.add_faqs l).search query t := by
  have h : (vs.add_faqs l).add_faqs l = vs.add_faqs l := by
    cases l with
    | nil => simp [VectorSearch.add_faqs]
    | cons a as => simp [VectorSearch.add_faqs]
  rw [h]

/-- C9: a successful update keeps the entry's identifier and creation
timestamp, replaces question and answer by the request's content, stamps
the modification time with the current clock, and rewrites only the found
position of the list. -/
theorem update_preserves_identity (faqs : List FAQItem) (fid : String)
    (req : UpdateFAQRequest) (now : Nat) (i : Nat)
    (h : firstIdxWith (fun f => f.id == fid) faqs = some i) :
    ∃ fs' u, update_faq faqs fid req now = .ok (fs', u) ∧
      u.id = (faqs.getD i dfltFAQ).id ∧
      u.created_at = (faqs.getD i dfltFAQ).created_at ∧
      u.updated_at = now ∧
      u.question = req.question ∧ u.answer = req.answer ∧
      fs' = faqs.set i u := by
  have hid : (faqs.getD i dfltFAQ).id = fid := by
    simpa using (firstIdxWith_spec _ faqs i h).2
  refine ⟨faqs.set i ⟨fid, req.question, req.answer, (faqs.getD i dfltFAQ).created_at, now,
      pyOrTags req.tags (faqs.getD i dfltFAQ).tags⟩,
    ⟨fid, req.question, req.answer, (faqs.getD i dfltFAQ).created_at, now,
      pyOrTags req.tags (faqs.getD i dfltFAQ).tags⟩, ?_, ?_, rfl, rfl, rfl, rfl, rfl⟩
  · unfold update_faq
    rw [h]
  · exact hid.symm

/-- C10: when the update request's tags field is `None` or the empty list,
the updated entry keeps the previous tags (Python's `or` treats both as
falsy), so an update can never clear the tags this way. -/
theorem update_empty_tags_keep_old (faqs : List FAQItem) (fid : String)
    (req : UpdateFAQRequest) (now : Nat) (i : Nat)
    (h : firstIdxWith (fun f => f.id == fid) faqs = some i)
    (htags : req.tags = none ∨ req.tags = some []) :
    ∃ fs' u, update_faq faqs fid req now = .ok (fs', u) ∧
      u.tags = (faqs.getD i dfltFAQ).tags := by
  refine ⟨faqs.set i ⟨fid, req.question, req.answer, (faqs.getD i dfltFAQ).created_at, now,
      pyOrTags req.tags (faqs.getD i dfltFAQ).tags⟩,
    ⟨fid, req.question, req.answer, (faqs.getD i dfltFAQ).created_at, now,
      pyOrTags req.tags (faqs.getD i dfltFAQ).tags⟩, ?_, ?_⟩
  · unfold update_faq
    rw [h]
  · rcases htags with ht | ht <;> simp [ht, pyOrTags]

/-- Knowledge base for the update witnesses. -/
def exFaqsU : List FAQItem :=
  [⟨"g1", "q1", "a1", 3, 3, ["x"]⟩, ⟨"g2", "q2", "a2", 4, 4, ["y"]⟩]

/-- Update request carrying non-empty tags. -/
def exReqU : UpdateFAQRequest := ⟨"q2new", "a2new", some ["z"]⟩

/-- Update request carrying an explicitly empty tags list. -/
def exReqEmptyTags : UpdateFAQRequest := ⟨"q2new", "a2new", some []⟩

/-- Witness for C9 at a concrete two-entry base, updating the second
entry at clock tick 9. -/
theorem update_preserves_identity_witness :
    ∃ fs' u, update_faq exFaqsU "g2" exReqU 9 = .ok (fs', u) ∧
      u.id = (exFaqsU.getD 1 dfltFAQ).id ∧
      u.created_at = (exFaqsU.getD 1 dfltFAQ).created_at ∧
      u.updated_at = 9 ∧
      u.question = exReqU.question ∧ u.answer = exReqU.answer ∧
      fs' = exFaqsU.set 1 u :=
  update_preserves_identity exFaqsU "g2" exReqU 9 1 (by decide)

/-- Witness for C10 at the same base, with an explicitly empty tags
list. -/
theorem update_empty_tags_keep_old_witness :
    ∃ fs' u, update_faq exFaqsU "g2" exReqEmptyTags 9 = .ok (fs', u) ∧
      u.tags = (exFaqsU.getD 1 dfltFAQ).tags :=
  update_empty_tags_keep_old exFaqsU "g2" exReqEmptyTags 9 1 (by decide) (Or.inr rfl)

/-- C2: the acceptance comparison is inclusive.  The returned score always
equals the best similarity; a best score exactly at the threshold returns
the matched entry; a best score strictly below it returns no direct match
and, with any configured client, `search_faq` takes the fallback path
(call counter one). -/
theorem search_threshold_inclusive (faqs : List FAQItem) (query : String) (t : ℝ)
    (hne : faqs ≠ []) :
    (searchOn faqs query t).2 = bestScore faqs query ∧
    (bestScore faqs query = t →
      (searchOn faqs query t).1 =
        some (faqs.getD (argmaxIdx (simsOn faqs query)) dfltFAQ)) ∧
    (bestScore faqs query < t →
      (searchOn faqs query t).1 = none ∧
      ∀ call : Except Unit String, (search_faq faqs (some call) ⟨query, t⟩).2 = 1) := by
  have hs := searchOn_eq faqs query t hne
  refine ⟨by rw [hs], fun heq => ?_, fun hlt => ?_⟩
  · rw [hs]
    simp only [Prod.fst]
    rw [if_pos (le_of_eq heq.symm)]
  · refine ⟨?_, fun call => ?_⟩
    · rw [hs]
      simp only [Prod.fst]
      rw [if_neg (not_le.mpr hlt)]
    · rw [search_faq_miss faqs query t (some call) hne hlt]
      cases call with
      | error e => rfl
      | ok ai =>
        simp only []
        split <;> rfl

/-- Witness for C2 on `exKB2`: the best score for "aa" is exactly 3/5, so
threshold 3/5 is accepted as a direct match, while threshold 7/10 sends
the engine to the fallback (counter one). -/
theorem search_threshold_inclusive_witness :
    (searchOn exKB2 "aa" (3 / 5 : ℝ)).1 = some faq2 ∧
    (search_faq exKB2 (some (Except.ok "zz")) ⟨"aa", (7 / 10 : ℝ)⟩).2 = 1 := by
  have hne : exKB2 ≠ [] := by simp [exKB2]
  constructor
  · have h := (search_threshold_inclusive exKB2 "aa" (3 / 5) hne).2.1 (by rw [best_exKB2_aa])
    rw [h]
    rw [show argmaxIdx (simsOn exKB2 "aa") = 0 from by rw [sims_exKB2_aa]; simp [argmaxIdx]]
    rfl
  · exact ((search_threshold_inclusive exKB2 "aa" (7 / 10) hne).2.2
      (by rw [best_exKB2_aa]; norm_num)).2 (Except.ok "zz")

/-- C3: on a miss (best score below threshold), an unconfigured fallback
client or a fallback call that raises both yield `has_answer = false` with
the raw similarity score as confidence; the failure is absorbed, never
re-raised (the model returns a plain value in both cases). -/
theorem fallback_unavailable_preserves_score (faqs : List FAQItem) (query : String)
    (t : ℝ) (hne : faqs ≠ []) (hmiss : bestScore faqs query < t) :
    (search_faq faqs none ⟨query, t⟩).1 =
      ⟨none, bestScore faqs query, none, false⟩ ∧
    ∀ e : Unit, (search_faq faqs (some (Except.error e)) ⟨query, t⟩).1 =
      ⟨none, bestScore faqs query, none, false⟩ := by
  constructor
  · rw [search_faq_miss faqs query t none hne hmiss]
  · intro e
    rw [search_faq_miss faqs query t (some (Except.error e)) hne hmiss]

/-- Witness for C3 on `exKB1` with the out-of-vocabulary query "cc"
(best score 0 below threshold 1/2): both failure modes return the declared
miss carrying that score. -/
theorem fallback_unavailable_preserves_score_witness :
    (search_faq exKB1 none ⟨"cc", (1 / 2 : ℝ)⟩).1 = ⟨none, 0, none, false⟩ ∧
    (search_faq exKB1 (some (Except.error ())) ⟨"cc", (1 / 2 : ℝ)⟩).1 =
      ⟨none, 0, none, false⟩ := by
  have h := fallback_unavailable_preserves_score exKB1 "cc" (1 / 2) (by simp [exKB1])
    (by rw [best_exKB1_cc]; norm_num)
  refine ⟨?_, ?_⟩
  · rw [h.1, best_exKB1_cc]
  · rw [h.2 (), best_exKB1_cc]

/-- C4: a fallback response containing the sentinel phrase in any letter
case yields `has_answer = false` with confidence exactly 0.4. -/
theorem fallback_sentinel_low_confidence (faqs : List FAQItem) (query : String)
    (t : ℝ) (ai : String) (hne : faqs ≠ []) (hmiss : bestScore faqs query < t)
    (hsent : containsSub sentinelPhrase (pyLower ai) = true) :
    search_faq faqs (some (Except.ok ai)) ⟨query, t⟩ =
      (⟨none, 0.4, none, false⟩, 1) := by
  rw [search_faq_miss faqs query t (some (Except.ok ai)) hne hmiss]
  simp [hsent]

/-- Witness for C4: an upper-case variant of the sentinel phrase is still
detected, and confidence 0.4 is returned. -/
theorem fallback_sentinel_low_confidence_witness :
    search_faq exKB1
        (some (Except.ok "I DON\x27T HAVE ENOUGH INFORMATION to answer this question."))
        ⟨"cc", (1 / 2 : ℝ)⟩ =
      (⟨none, 0.4, none, false⟩, 1) :=
  fallback_sentinel_low_confidence exKB1 "cc" (1 / 2) _ (by simp [exKB1])
    (by rw [best_exKB1_cc]; norm_num) (by decide)

/-- C5: a fallback response without the sentinel phrase is returned as the
answer with `has_answer = true`, confidence exactly 0.7 and no source
identifier. -/
theorem fallback_substantive_answer (faqs : List FAQItem) (query : String)
    (t : ℝ) (ai : String) (hne : faqs ≠ []) (hmiss : bestScore faqs query < t)
    (hsent : containsSub sentinelPhrase (pyLower ai) = false) :
    search_faq faqs (some (Except.ok ai)) ⟨query, t⟩ =
      (⟨some ai, 0.7, none, true⟩, 1) := by
  rw [search_faq_miss faqs query t (some (Except.ok ai)) hne hmiss]
  simp [hsent]

/-- Witness for C5 with a substantive fallback text. -/
theorem fallback_substantive_answer_witness :
    search_faq exKB1 (some (Except.ok "Paris is the capital of France."))
        ⟨"cc", (1 / 2 : ℝ)⟩ =
      (⟨some "Paris is the capital of France.", 0.7, none, true⟩, 1) :=
  fallback_substantive_answer exKB1 "cc" (1 / 2) _ (by simp [exKB1])
    (by rw [best_exKB1_cc]; norm_num) (by decide)

/-- C1 counterexample: on the one-entry base `exKB1` (question "aa",
answer "bb"), searching with the exact question text "aa" does return the
entry, but with similarity score the inverse square root of two, not 1.0:
the indexed document vector also carries the answer's terms. -/
theorem search_exact_question_score_cex :
    (searchOn exKB1 "aa" (1 / 2 : ℝ)).1 = some faq1 ∧
    (searchOn exKB1 "aa" (1 / 2 : ℝ)).2 ≠ 1 := by
  have hne : exKB1 ≠ [] := by simp [exKB1]
  have hs := searchOn_eq exKB1 "aa" (1 / 2) hne
  have hsqrt2_pos : 0 < Real.sqrt 2 := Real.sqrt_pos.mpr (by norm_num)
  have hle2 : Real.sqrt 2 ≤ 2 := by
    nlinarith [Real.sq_sqrt (show (0 : ℝ) ≤ 2 by norm_num), Real.sqrt_nonneg 2]
  have hth : (1 / 2 : ℝ) ≤ bestScore exKB1 "aa" := by
    rw [best_exKB1_aa, show (Real.sqrt 2)⁻¹ = 1 / Real.sqrt 2 from (one_div _).symm,
      div_le_div_iff₀ (by norm_num) hsqrt2_pos]
    linarith
  constructor
  · rw [hs]
    simp only [Prod.fst]
    rw [if_pos hth,
      show argmaxIdx (simsOn exKB1 "aa") = 0 from by rw [sims_exKB1_aa]; simp [argmaxIdx]]
    rfl
  · rw [hs]
    simp only [Prod.snd]
    rw [best_exKB1_aa]
    intro hcontra
    rw [inv_eq_one, Real.sqrt_eq_one] at hcontra
    norm_num at hcontra

/-- C1 amended: querying with the exact concatenated question-and-answer
text of an indexed entry (the very text the engine indexed, provided it
tokenises to at least one term) makes the best similarity score exactly
1.0, and with any threshold at most one the search returns a matched
entry.  Querying with the question alone does not score 1.0 in general
(see the counterexample). -/
theorem search_exact_document_scores_one (faqs : List FAQItem) (i : ℕ)
    (hi : i < faqs.length)
    (htok : tokenize ((faqs.getD i dfltFAQ).question ++ " " ++
      (faqs.getD i dfltFAQ).answer) ≠ [])
    (t : ℝ) (ht : t ≤ 1) :
    (searchOn faqs ((faqs.getD i dfltFAQ).question ++ " " ++
      (faqs.getD i dfltFAQ).answer) t).2 = 1 ∧
    ∃ f, (searchOn faqs ((faqs.getD i dfltFAQ).question ++ " " ++
      (faqs.getD i dfltFAQ).answer) t).1 = some f := by
  set q := (faqs.getD i dfltFAQ).question ++ " " ++ (faqs.getD i dfltFAQ).answer with hq
  have hne : faqs ≠ [] := List.ne_nil_of_length_pos (by omega)
  have hlenc : (corpusOf faqs).length = faqs.length := by simp [corpusOf]
  have hic : i < (corpusOf faqs).length := by omega
  have hdoc : (corpusOf faqs).getD i [] = tokenize q := by
    rw [corpusOf, getD_map_of_lt _ faqs i hi [] dfltFAQ]
  have hmem : tokenize q ∈ corpusOf faqs := by
    rw [← hdoc, List.getD_eq_getElem _ _ hic]
    exact List.getElem_mem hic
  obtain ⟨t0, ht0⟩ := List.exists_mem_of_ne_nil _ htok
  have hnorm : 0 < normW (corpusOf faqs) (tfidfW (corpusOf faqs) (tokenize q)) :=
    normW_pos_of_token _ _ hmem t0 ht0
  have hslen : (simsOn faqs q).length = faqs.length := length_simsOn faqs q
  have hsim_i : (simsOn faqs q).getD i 0 = 1 := by
    rw [simsOn, getD_map_of_lt _ (corpusOf faqs) i hic 0 [], hdoc]
    exact cosSim_self _ _ (ne_of_gt hnorm)
  have hsne : simsOn faqs q ≠ [] := List.ne_nil_of_length_pos (by omega)
  have harg : argmaxIdx (simsOn faqs q) < (simsOn faqs q).length :=
    argmaxIdx_lt_length _ hsne
  have hbest_le : bestScore faqs q ≤ 1 := by
    rw [bestScore,
      show (simsOn faqs q).getD (argmaxIdx (simsOn faqs q)) 0 =
        cosSim (corpusOf faqs) (tokenize q)
          ((corpusOf faqs).getD (argmaxIdx (simsOn faqs q)) []) from by
        rw [simsOn]
        exact getD_map_of_lt _ (corpusOf faqs) _ (by rw [simsOn] at harg; simpa using harg) 0 []]
    exact cosSim_le_one _ _ _
  have hbest_ge : (1 : ℝ) ≤ bestScore faqs q := by
    calc (1 : ℝ) = (simsOn faqs q).getD i 0 := hsim_i.symm
    _ ≤ (simsOn faqs q).getD (argmaxIdx (simsOn faqs q)) 0 :=
      getD_le_argmax _ i (by omega)
  have hbest : bestScore faqs q = 1 := le_antisymm hbest_le hbest_ge
  have hs := searchOn_eq faqs q t hne
  constructor
  · rw [hs]
    simp only [Prod.snd]
    exact hbest
  · rw [hs]
    simp only [Prod.fst]
    rw [if_pos (by rw [hbest]; exact ht)]
    exact ⟨_, rfl⟩

/-- Witness for the amended C1 at `exKB1`: querying "aa bb" (the entry's
full indexed text) scores exactly 1.0 and returns a match at threshold
1/2. -/
theorem search_exact_document_scores_one_witness :
    (searchOn exKB1 ((exKB1.getD 0 dfltFAQ).question ++ " " ++
      (exKB1.getD 0 dfltFAQ).answer) (1 / 2 : ℝ)).2 = 1 ∧
    ∃ f, (searchOn exKB1 ((exKB1.getD 0 dfltFAQ).question ++ " " ++
      (exKB1.getD 0 dfltFAQ).answer) (1 / 2 : ℝ)).1 = some f :=
  search_exact_document_scores_one exKB1 0 (by decide) (by decide) (1 / 2) (by norm_num)

/-- C7: with two entries of identical question+answer text at positions
`i < j`, the first-maximum row is never `j` (ties resolve to the earlier
insertion index); the chosen row is maximal over the whole base; and a
met threshold returns exactly the entry at that chosen row. -/
theorem tie_break_earliest_entry (faqs : List FAQItem) (query : String) (t : ℝ)
    (i j : ℕ) (hij : i < j) (hj : j < faqs.length)
    (hq : (faqs.getD i dfltFAQ).question = (faqs.getD j dfltFAQ).question)
    (ha : (faqs.getD i dfltFAQ).answer = (faqs.getD j dfltFAQ).answer) :
    argmaxIdx (simsOn faqs query) ≠ j ∧
    (∀ k, k < faqs.length →
      (simsOn faqs query).getD k 0 ≤
        (simsOn faqs query).getD (argmaxIdx (simsOn faqs query)) 0) ∧
    (t ≤ bestScore faqs query →
      (searchOn faqs query t).1 =
        some (faqs.getD (argmaxIdx (simsOn faqs query)) dfltFAQ)) := by
  have hi : i < faqs.length := lt_trans hij hj
  have hslen : (simsOn faqs query).length = faqs.length := length_simsOn faqs query
  have hlenc : (corpusOf faqs).length = faqs.length := by simp [corpusOf]
  have hdocs : (corpusOf faqs).getD i [] = (corpusOf faqs).getD j [] := by
    rw [corpusOf, getD_map_of_lt _ faqs i hi [] dfltFAQ,
      getD_map_of_lt _ faqs j hj [] dfltFAQ, hq, ha]
  have hsims_eq : (simsOn faqs query).getD i 0 = (simsOn faqs query).getD j 0 := by
    rw [simsOn, getD_map_of_lt _ (corpusOf faqs) i (by omega) 0 [],
      getD_map_of_lt _ (corpusOf faqs) j (by omega) 0 [], hdocs]
  refine ⟨?_, ?_, ?_⟩
  · intro hcontra
    have hlt := getD_lt_of_lt_argmax (simsOn faqs query) i (by omega)
    rw [hcontra] at hlt
    rw [hsims_eq] at hlt
    exact lt_irrefl _ hlt
  · intro k hk
    exact getD_le_argmax _ k (by omega)
  · intro hge
    rw [searchOn_eq faqs query t (List.ne_nil_of_length_pos (by omega))]
    simp only [Prod.fst]
    rw [if_pos hge]

/-- Witness for C7 on `exKB3`, whose two entries carry identical text: the
argmax row is never the later duplicate, every row is dominated by the
chosen one, and a met threshold returns the chosen row's entry. -/
theorem tie_break_earliest_entry_witness :
    argmaxIdx (simsOn exKB3 "aa") ≠ 1 ∧
    (∀ k, k < exKB3.length →
      (simsOn exKB3 "aa").getD k 0 ≤
        (simsOn exKB3 "aa").getD (argmaxIdx (simsOn exKB3 "aa")) 0) ∧
    ((1 / 2 : ℝ) ≤ bestScore exKB3 "aa" →
      (searchOn exKB3 "aa" (1 / 2 : ℝ)).1 =
        some (exKB3.getD (argmaxIdx (simsOn exKB3 "aa")) dfltFAQ)) :=
  tie_break_earliest_entry exKB3 "aa" (1 / 2) 0 1 (by decide) (by decide)
    (by decide) (by decide)
